import Mathlib

/-!
Verification of the solar-geometry core of the solar-simulator repository
(src/main.js) against its specification.

The embedding below translates the pure solar-geometry functions of
src/main.js into Lean over real arithmetic:

* JavaScript number arithmetic is modelled by real arithmetic; the
  JavaScript remainder operator on reals is modelled by jsMod
  (remainder with the sign of the dividend, truncated division).
* THREE.MathUtils.degToRad and radToDeg become degToRad and radToDeg.
* THREE.Vector3 becomes the Vec3 structure with componentwise add, smul,
  dot, norm, and THREE's normalize (which divides by the length, or by 1
  when the length is 0).
* The external sun-position provider SunCalc.getPosition is an abstract
  collaborator: for the daily sweeps over one calendar day it is a
  function from the minute-of-day of the sample to a SunPos value
  (azimuth and altitude in radians).  The timestamps produced by the
  sweeps (baseDate plus the minute count) are in bijection with the
  minute count, so sample times are represented by their minute-of-day.
* The date-string parsing of getSelectedDateTime / getSelectedDate is
  modelled over lists of characters, with the JavaScript Number
  coercion an abstract parameter returning none for NaN (and the
  missing components of a short split are also modelled as none, since
  undefined and NaN are equally falsy in the source's check).
-/

noncomputable section

/-- JavaScript truncation toward zero, as used by the JavaScript remainder
operator: the floor for nonnegative arguments and the ceiling for negative
ones. -/
def jsTrunc (x : ℝ) : ℝ := if 0 ≤ x then (⌊x⌋ : ℝ) else (⌈x⌉ : ℝ)

/-- The JavaScript remainder operator a % b on real numbers: the remainder
of truncated division, carrying the sign of the dividend. -/
def jsMod (a b : ℝ) : ℝ := a - b * jsTrunc (a / b)

/-- src/main.js normalizeDegrees: (deg % 360 + 360) % 360. -/
def normalizeDegrees (deg : ℝ) : ℝ := jsMod (jsMod deg 360 + 360) 360

/-- THREE.MathUtils.degToRad: degrees * (pi / 180). -/
def degToRad (degrees : ℝ) : ℝ := degrees * (Real.pi / 180)

/-- THREE.MathUtils.radToDeg: radians * (180 / pi). -/
def radToDeg (radians : ℝ) : ℝ := radians * (180 / Real.pi)

/-- src/main.js toCompassHeadingDegrees: (radToDeg(azimuth) + 180) % 360,
then + 360 when the remainder is negative. -/
def toCompassHeadingDegrees (sunCalcAzimuthRad : ℝ) : ℝ :=
  let heading := jsMod (radToDeg sunCalcAzimuthRad + 180) 360
  if heading < 0 then heading + 360 else heading

/-- A THREE.Vector3 value: three real components, ground plane XZ, Y up. -/
@[ext]
structure Vec3 where
  x : ℝ
  y : ℝ
  z : ℝ

/-- Componentwise vector addition (THREE.Vector3.add). -/
def Vec3.add (a b : Vec3) : Vec3 := ⟨a.x + b.x, a.y + b.y, a.z + b.z⟩

/-- Scalar multiplication (THREE.Vector3.multiplyScalar). -/
def Vec3.smul (c : ℝ) (v : Vec3) : Vec3 := ⟨c * v.x, c * v.y, c * v.z⟩

/-- Dot product (THREE.Vector3.dot). -/
def Vec3.dot (a b : Vec3) : ℝ := a.x * b.x + a.y * b.y + a.z * b.z

/-- Squared Euclidean length. -/
def Vec3.normSq (v : Vec3) : ℝ := Vec3.dot v v

/-- Euclidean length (THREE.Vector3.length). -/
def Vec3.norm (v : Vec3) : ℝ := Real.sqrt (Vec3.normSq v)

/-- THREE.Vector3.normalize: divide by the length, or by 1 when the length
is zero. -/
def Vec3.normalize (v : Vec3) : Vec3 :=
  Vec3.smul (1 / (if Vec3.norm v = 0 then 1 else Vec3.norm v)) v

/-- A sun position returned by the external provider SunCalc.getPosition:
azimuth measured from south, positive westward, and altitude above the
horizon, both in radians. -/
structure SunPos where
  azimuth : ℝ
  altitude : ℝ

/-- The vector built inside src/main.js getPanelNormalVector before the
final normalize call: up scaled by cos(tilt) plus the horizontal heading
direction scaled by sin(tilt). -/
def rawPanelNormal (headingDegrees tiltDegrees : ℝ) : Vec3 :=
  let headingRad := degToRad (headingDegrees - 90)
  let tiltRad := degToRad tiltDegrees
  let horizontal : Vec3 := ⟨Real.cos headingRad, 0, Real.sin headingRad⟩
  Vec3.add (Vec3.smul (Real.cos tiltRad) ⟨0, 1, 0⟩)
    (Vec3.smul (Real.sin tiltRad) horizontal)

/-- src/main.js getPanelNormalVector (lines 554-562). -/
def getPanelNormalVector (headingDegrees tiltDegrees : ℝ) : Vec3 :=
  Vec3.normalize (rawPanelNormal headingDegrees tiltDegrees)

/-- The vector built inside src/main.js getSunDirectionVector before the
final normalize call: the spec section 4.1 direction formula. -/
def rawSunDirection (sunPos : SunPos) : Vec3 :=
  let azimuth := sunPos.azimuth + Real.pi / 2
  ⟨Real.cos azimuth * Real.cos sunPos.altitude,
    Real.sin sunPos.altitude,
    Real.sin azimuth * Real.cos sunPos.altitude⟩

/-- src/main.js getSunDirectionVector (lines 564-572). -/
def getSunDirectionVector (sunPos : SunPos) : Vec3 :=
  Vec3.normalize (rawSunDirection sunPos)

/-- src/main.js getPanelIncidenceFactor (lines 574-578):
max(0, dot(panel normal, sun direction)). -/
def getPanelIncidenceFactor (sunPos : SunPos)
    (panelHeadingDegrees panelTiltDegrees : ℝ) : ℝ :=
  max 0 (Vec3.dot (getPanelNormalVector panelHeadingDegrees panelTiltDegrees)
    (getSunDirectionVector sunPos))

/-- The result record of src/main.js getDailyPeakIncidence: the peak
incidence factor and the minute-of-day of the peak sample (none when no
sample was above the horizon). -/
structure DailyPeak where
  factor : ℝ
  time : Option ℕ

attribute [ext] DailyPeak

/-- The minute-of-day values visited by the getDailyPeakIncidence loop:
0 to 1440 inclusive in steps of 5 minutes. -/
def peakSamples : List ℕ := (List.range 289).map (fun k => k * 5)

/-- Whether the loop keeps the sample at a given minute: the source skips
samples whose altitude is at most 0. -/
def sampleKept (getPos : ℕ → SunPos) (minutes : ℕ) : Bool :=
  decide (¬ (getPos minutes).altitude ≤ 0)

/-- The incidence factor of the sample at a given minute. -/
def sampleFactor (getPos : ℕ → SunPos)
    (panelHeadingDegrees panelTiltDegrees : ℝ) (minutes : ℕ) : ℝ :=
  getPanelIncidenceFactor (getPos minutes) panelHeadingDegrees panelTiltDegrees

/-- One iteration of the getDailyPeakIncidence loop body (lines 591-603):
skip the sample when altitude is at most 0, otherwise replace the running
best exactly when the new factor is strictly greater. -/
def peakStep (getPos : ℕ → SunPos) (panelHeadingDegrees panelTiltDegrees : ℝ)
    (peak : DailyPeak) (minutes : ℕ) : DailyPeak :=
  let sunPos := getPos minutes
  if sunPos.altitude ≤ 0 then peak
  else
    let factor := getPanelIncidenceFactor sunPos panelHeadingDegrees panelTiltDegrees
    if peak.factor < factor then ⟨factor, some minutes⟩ else peak

/-- src/main.js getDailyPeakIncidence (lines 584-605), with the provider
abstracted to a function from the minute-of-day to the sun position. -/
def getDailyPeakIncidence (getPos : ℕ → SunPos)
    (panelHeadingDegrees panelTiltDegrees : ℝ) : DailyPeak :=
  peakSamples.foldl (peakStep getPos panelHeadingDegrees panelTiltDegrees) ⟨0, none⟩

/-- The fold of the getDailyPeakIncidence loop over an arbitrary sample
list, used to state the loop invariant. -/
def peakRun (getPos : ℕ → SunPos) (panelHeadingDegrees panelTiltDegrees : ℝ)
    (l : List ℕ) : DailyPeak :=
  l.foldl (peakStep getPos panelHeadingDegrees panelTiltDegrees) ⟨0, none⟩

/-- The samples of a list that survive the altitude gate. -/
def keptOf (getPos : ℕ → SunPos) (l : List ℕ) : List ℕ :=
  l.filter (sampleKept getPos)

/-- The incidence factors of the surviving samples. -/
def keptFactors (getPos : ℕ → SunPos)
    (panelHeadingDegrees panelTiltDegrees : ℝ) (l : List ℕ) : List ℝ :=
  (keptOf getPos l).map (sampleFactor getPos panelHeadingDegrees panelTiltDegrees)

/-- Maximum of a list of reals with 0 for the empty list. -/
def listMax (l : List ℝ) : ℝ := l.foldr max 0

/-- The minute-of-day values visited by the buildSunPathGeometry loop:
0 to 1440 inclusive in steps of 10 minutes. -/
def pathSamples : List ℕ := (List.range 145).map (fun k => k * 10)

/-- The 3D point pushed by buildSunPathGeometry for one sample
(lines 628-632): radius times the section 4.1 direction formula. -/
def pathPoint (getPos : ℕ → SunPos) (radius : ℝ) (minutes : ℕ) : Vec3 :=
  let sunPos := getPos minutes
  let azimuth := sunPos.azimuth + Real.pi / 2
  ⟨radius * Real.cos azimuth * Real.cos sunPos.altitude,
    radius * Real.sin sunPos.altitude,
    radius * Real.sin azimuth * Real.cos sunPos.altitude⟩

/-- One iteration of the buildSunPathGeometry loop body: skip samples with
altitude at most 0, otherwise push the point. -/
def pathStep (getPos : ℕ → SunPos) (radius : ℝ)
    (positions : List Vec3) (minutes : ℕ) : List Vec3 :=
  if (getPos minutes).altitude ≤ 0 then positions
  else positions ++ [pathPoint getPos radius minutes]

/-- src/main.js buildSunPathGeometry (lines 616-638): the ordered list of
emitted 3D points (the positions array handed to the line geometry). -/
def buildSunPathGeometry (getPos : ℕ → SunPos) (radius : ℝ) : List Vec3 :=
  pathSamples.foldl (pathStep getPos radius) []

/-- The sunrise value printed by src/main.js updateSunInfo (lines 734-736):
normalizeDegrees(radToDeg(sunrise azimuth + pi/2)), as a function of the
azimuth returned by querying the provider at the sunrise timestamp. -/
def sunInfoSunriseDeg (sunriseAzimuthRad : ℝ) : ℝ :=
  normalizeDegrees (radToDeg (sunriseAzimuthRad + Real.pi / 2))

/-- The sunset value printed by src/main.js updateSunInfo (lines 735-737). -/
def sunInfoSunsetDeg (sunsetAzimuthRad : ℝ) : ℝ :=
  normalizeDegrees (radToDeg (sunsetAzimuthRad + Real.pi / 2))

/-- A JavaScript Date value as constructed by getSelectedDateTime and
getSelectedDate: either the current date-time (new Date()) or the value
new Date(year, monthIndex, day, hours, minutes, 0, 0). -/
inductive JsDate where
  | now : JsDate
  | ymdhm (year monthIndex day : ℚ) (hours minutes : ℕ) : JsDate
  deriving DecidableEq

/-- JavaScript String.prototype.split with a single-character separator,
over lists of characters.  Splitting the empty string yields one empty
group, matching JavaScript. -/
def splitOnChar (sep : Char) : List Char → List (List Char)
  | [] => [[]]
  | c :: rest =>
    let groups := splitOnChar sep rest
    if c = sep then [] :: groups
    else (c :: groups.headD []) :: groups.tail

/-- JavaScript truthiness of a parsed number: NaN (modelled none) and 0
are falsy, every other number is truthy. -/
def jsTruthy : Option ℚ → Bool
  | none => false
  | some q => decide (q ≠ 0)

/-- dateString.split('-').map(Number), with the Number coercion an
abstract parameter returning none for NaN. -/
def dateParts (num : List Char → Option ℚ) (dateString : List Char) :
    List (Option ℚ) :=
  (splitOnChar '-' dateString).map num

/-- src/main.js getSelectedDateTime (lines 480-488): fall back to the
current date-time when any of year, month, day is falsy, else build the
date at the selected hours and minutes. -/
def getSelectedDateTime (num : List Char → Option ℚ) (dateString : List Char)
    (timeMinutes : ℕ) : JsDate :=
  let parts := dateParts num dateString
  let year := parts.getD 0 none
  let month := parts.getD 1 none
  let day := parts.getD 2 none
  let hours := timeMinutes / 60
  let minutes := timeMinutes % 60
  if !(jsTruthy year) || !(jsTruthy month) || !(jsTruthy day) then JsDate.now
  else JsDate.ymdhm (year.getD 0) (month.getD 0 - 1) (day.getD 0) hours minutes

/-- src/main.js getSelectedDate (lines 535-541): same fallback, midnight
of the selected date otherwise. -/
def getSelectedDate (num : List Char → Option ℚ) (dateString : List Char) :
    JsDate :=
  let parts := dateParts num dateString
  let year := parts.getD 0 none
  let month := parts.getD 1 none
  let day := parts.getD 2 none
  if !(jsTruthy year) || !(jsTruthy month) || !(jsTruthy day) then JsDate.now
  else JsDate.ymdhm (year.getD 0) (month.getD 0 - 1) (day.getD 0) 0 0

/-- A provider placing the sun at altitude pi/4 and azimuth 0 at every
sample, for concrete witnesses. -/
def constQuarterAlt : ℕ → SunPos := fun _ => ⟨0, Real.pi / 4⟩

/-- A provider keeping the sun below the horizon at every sample (polar
night), for concrete witnesses. -/
def constNightPos : ℕ → SunPos := fun _ => ⟨0, -1⟩

/-- A concrete Number coercion for witnesses: parses the three component
strings of the date 2024-6-21 and nothing else. -/
def numLit : List Char → Option ℚ := fun s =>
  if s = ['2', '0', '2', '4'] then some 2024
  else if s = ['6'] then some 6
  else if s = ['2', '1'] then some 21
  else none

lemma jsMod_nonneg_lt (a b : ℝ) (ha : 0 ≤ a) (hb : 0 < b) :
    0 ≤ jsMod a b ∧ jsMod a b < b := by
  have hb' : b ≠ 0 := ne_of_gt hb
  have hq : 0 ≤ a / b := div_nonneg ha hb.le
  have he : jsMod a b = b * Int.fract (a / b) := by
    unfold jsMod jsTrunc Int.fract
    rw [if_pos hq, mul_sub, mul_div_cancel₀ a hb']
  constructor
  · rw [he]
    exact mul_nonneg hb.le (Int.fract_nonneg _)
  · rw [he]
    calc b * Int.fract (a / b) < b * 1 :=
          mul_lt_mul_of_pos_left (Int.fract_lt_one _) hb
      _ = b := mul_one b

lemma jsMod_neg_bounds (a b : ℝ) (ha : a < 0) (hb : 0 < b) :
    -b < jsMod a b ∧ jsMod a b ≤ 0 := by
  have hb' : b ≠ 0 := ne_of_gt hb
  have hq : a / b < 0 := div_neg_of_neg_of_pos ha hb
  have he : jsMod a b = b * (a / b - (⌈a / b⌉ : ℝ)) := by
    unfold jsMod jsTrunc
    rw [if_neg (not_le.mpr hq), mul_sub, mul_div_cancel₀ a hb']
  have hle : a / b - (⌈a / b⌉ : ℝ) ≤ 0 := by
    have := Int.le_ceil (a / b)
    linarith
  have hgt : -1 < a / b - (⌈a / b⌉ : ℝ) := by
    have := Int.ceil_lt_add_one (a / b)
    linarith
  constructor
  · rw [he]
    nlinarith
  · rw [he]
    nlinarith

lemma jsMod_eq_self (a b : ℝ) (ha : 0 ≤ a) (hab : a < b) : jsMod a b = a := by
  have hb : 0 < b := lt_of_le_of_lt ha hab
  have hq : 0 ≤ a / b := div_nonneg ha hb.le
  have hfl : ⌊a / b⌋ = 0 :=
    Int.floor_eq_zero_iff.mpr (Set.mem_Ico.mpr ⟨hq, (div_lt_one hb).mpr hab⟩)
  unfold jsMod jsTrunc
  rw [if_pos hq, hfl]
  push_cast
  ring

lemma jsMod_add_left (a b : ℝ) (ha : 0 ≤ a) (hab : a < b) :
    jsMod (a + b) b = a := by
  have hb : 0 < b := lt_of_le_of_lt ha hab
  have hb' : b ≠ 0 := ne_of_gt hb
  have hq : (a + b) / b = a / b + 1 := by
    field_simp
  have hq0 : 0 ≤ (a + b) / b := div_nonneg (by linarith) hb.le
  have hfl : ⌊(a + b) / b⌋ = 1 := by
    rw [hq, Int.floor_add_one,
      Int.floor_eq_zero_iff.mpr
        (Set.mem_Ico.mpr ⟨div_nonneg ha hb.le, (div_lt_one hb).mpr hab⟩)]
    norm_num
  unfold jsMod jsTrunc
  rw [if_pos hq0, hfl]
  push_cast
  ring

lemma normalizeDegrees_cases (deg : ℝ) :
    normalizeDegrees deg =
      if jsMod deg 360 < 0 then jsMod deg 360 + 360 else jsMod deg 360 := by
  unfold normalizeDegrees
  rcases le_or_lt 0 deg with hd | hd
  · obtain ⟨h0, h1⟩ := jsMod_nonneg_lt deg 360 hd (by norm_num)
    rw [if_neg (not_lt.mpr h0), jsMod_add_left _ _ h0 h1]
  · obtain ⟨h0, h1⟩ := jsMod_neg_bounds deg 360 hd (by norm_num)
    rcases lt_or_eq_of_le h1 with hlt | heq
    · rw [if_pos hlt, jsMod_eq_self _ _ (by linarith) (by linarith)]
    · rw [heq, if_neg (lt_irrefl 0)]
      exact jsMod_add_left 0 360 le_rfl (by norm_num)

lemma normalizeDegrees_bounds (deg : ℝ) :
    0 ≤ normalizeDegrees deg ∧ normalizeDegrees deg < 360 := by
  rw [normalizeDegrees_cases]
  rcases le_or_lt 0 deg with hd | hd
  · obtain ⟨h0, h1⟩ := jsMod_nonneg_lt deg 360 hd (by norm_num)
    rw [if_neg (not_lt.mpr h0)]
    exact ⟨h0, h1⟩
  · obtain ⟨h0, h1⟩ := jsMod_neg_bounds deg 360 hd (by norm_num)
    by_cases hz : jsMod deg 360 < 0
    · rw [if_pos hz]
      constructor <;> linarith
    · rw [if_neg hz]
      push_neg at hz
      constructor <;> linarith

lemma normalizeDegrees_fixed (deg : ℝ) (h0 : 0 ≤ deg) (h1 : deg < 360) :
    normalizeDegrees deg = deg := by
  rw [normalizeDegrees_cases, jsMod_eq_self _ _ h0 h1, if_neg (not_lt.mpr h0)]

lemma normalizeDegrees_idem (deg : ℝ) :
    normalizeDegrees (normalizeDegrees deg) = normalizeDegrees deg :=
  normalizeDegrees_fixed _ (normalizeDegrees_bounds deg).1
    (normalizeDegrees_bounds deg).2

lemma radToDeg_zero : radToDeg 0 = 0 := by
  unfold radToDeg
  ring

lemma radToDeg_add_pi_div_two (r : ℝ) :
    radToDeg (r + Real.pi / 2) = radToDeg r + 90 := by
  unfold radToDeg
  have hpi := Real.pi_ne_zero
  field_simp
  ring

lemma radToDeg_neg_pi_div_two : radToDeg (-(Real.pi / 2)) = -90 := by
  unfold radToDeg
  have hpi := Real.pi_ne_zero
  field_simp
  ring

lemma degToRad_ninety : degToRad 90 = Real.pi / 2 := by
  unfold degToRad
  ring

lemma degToRad_neg_ninety : degToRad (0 - 90) = -(Real.pi / 2) := by
  unfold degToRad
  ring

lemma toCompassHeadingDegrees_eq (az : ℝ) :
    toCompassHeadingDegrees az = normalizeDegrees (radToDeg az + 180) := by
  rw [normalizeDegrees_cases]
  rfl

lemma toCompassHeadingDegrees_zero : toCompassHeadingDegrees 0 = 180 := by
  rw [toCompassHeadingDegrees_eq, radToDeg_zero, zero_add]
  exact normalizeDegrees_fixed 180 (by norm_num) (by norm_num)

lemma toCompassHeadingDegrees_neg_pi_div_two :
    toCompassHeadingDegrees (-(Real.pi / 2)) = 90 := by
  rw [toCompassHeadingDegrees_eq, radToDeg_neg_pi_div_two]
  norm_num
  exact normalizeDegrees_fixed 90 (by norm_num) (by norm_num)

lemma Vec3.dot_mk (ax ay az bx by' bz : ℝ) :
    Vec3.dot ⟨ax, ay, az⟩ ⟨bx, by', bz⟩ = ax * bx + ay * by' + az * bz := rfl

lemma Vec3.normSq_mk (ax ay az : ℝ) :
    Vec3.normSq ⟨ax, ay, az⟩ = ax * ax + ay * ay + az * az := rfl

lemma Vec3.normalize_of_normSq_one {v : Vec3} (h : Vec3.normSq v = 1) :
    Vec3.normalize v = v := by
  unfold Vec3.normalize Vec3.norm
  rw [h, Real.sqrt_one, if_neg one_ne_zero]
  unfold Vec3.smul
  ext <;> norm_num

lemma Vec3.dot_le_one {a b : Vec3}
    (ha : Vec3.normSq a = 1) (hb : Vec3.normSq b = 1) : Vec3.dot a b ≤ 1 := by
  unfold Vec3.normSq Vec3.dot at *
  nlinarith [sq_nonneg (a.x - b.x), sq_nonneg (a.y - b.y), sq_nonneg (a.z - b.z)]

lemma Vec3.eq_of_dot_eq_one {a b : Vec3}
    (ha : Vec3.normSq a = 1) (hb : Vec3.normSq b = 1)
    (hd : Vec3.dot a b = 1) : a = b := by
  unfold Vec3.normSq at ha hb
  unfold Vec3.dot at ha hb hd
  have hsum :
      (a.x - b.x) ^ 2 + (a.y - b.y) ^ 2 + (a.z - b.z) ^ 2 = 0 := by
    linear_combination ha + hb - 2 * hd
  have hx : (a.x - b.x) ^ 2 = 0 := by
    nlinarith [sq_nonneg (a.y - b.y), sq_nonneg (a.z - b.z), sq_nonneg (a.x - b.x)]
  have hy : (a.y - b.y) ^ 2 = 0 := by
    nlinarith [sq_nonneg (a.y - b.y), sq_nonneg (a.z - b.z), sq_nonneg (a.x - b.x)]
  have hz : (a.z - b.z) ^ 2 = 0 := by
    nlinarith [sq_nonneg (a.y - b.y), sq_nonneg (a.z - b.z), sq_nonneg (a.x - b.x)]
  ext
  · have := (pow_eq_zero_iff two_ne_zero).mp hx
    linarith [sub_eq_zero.mp this]
  · have := (pow_eq_zero_iff two_ne_zero).mp hy
    linarith [sub_eq_zero.mp this]
  · have := (pow_eq_zero_iff two_ne_zero).mp hz
    linarith [sub_eq_zero.mp this]

lemma rawPanelNormal_normSq (headingDegrees tiltDegrees : ℝ) :
    Vec3.normSq (rawPanelNormal headingDegrees tiltDegrees) = 1 := by
  unfold rawPanelNormal Vec3.add Vec3.smul
  rw [Vec3.normSq_mk]
  have h1 := Real.sin_sq_add_cos_sq (degToRad (headingDegrees - 90))
  have h2 := Real.sin_sq_add_cos_sq (degToRad tiltDegrees)
  linear_combination Real.sin (degToRad tiltDegrees) ^ 2 * h1 + h2

lemma getPanelNormalVector_eq_raw (headingDegrees tiltDegrees : ℝ) :
    getPanelNormalVector headingDegrees tiltDegrees
      = rawPanelNormal headingDegrees tiltDegrees :=
  Vec3.normalize_of_normSq_one (rawPanelNormal_normSq headingDegrees tiltDegrees)

lemma getPanelNormalVector_normSq (headingDegrees tiltDegrees : ℝ) :
    Vec3.normSq (getPanelNormalVector headingDegrees tiltDegrees) = 1 := by
  rw [getPanelNormalVector_eq_raw]
  exact rawPanelNormal_normSq headingDegrees tiltDegrees

lemma rawSunDirection_normSq (sunPos : SunPos) :
    Vec3.normSq (rawSunDirection sunPos) = 1 := by
  unfold rawSunDirection
  rw [Vec3.normSq_mk]
  have h1 := Real.sin_sq_add_cos_sq (sunPos.azimuth + Real.pi / 2)
  have h2 := Real.sin_sq_add_cos_sq sunPos.altitude
  linear_combination Real.cos sunPos.altitude ^ 2 * h1 + h2

lemma getSunDirectionVector_eq_raw (sunPos : SunPos) :
    getSunDirectionVector sunPos = rawSunDirection sunPos :=
  Vec3.normalize_of_normSq_one (rawSunDirection_normSq sunPos)

lemma getSunDirectionVector_normSq (sunPos : SunPos) :
    Vec3.normSq (getSunDirectionVector sunPos) = 1 := by
  rw [getSunDirectionVector_eq_raw]
  exact rawSunDirection_normSq sunPos

lemma listMax_nonneg (l : List ℝ) : 0 ≤ listMax l := by
  induction l with
  | nil => exact le_refl 0
  | cons a l ih =>
    show 0 ≤ max a (listMax l)
    exact le_trans ih (le_max_right a (listMax l))

lemma le_listMax_of_mem {x : ℝ} {l : List ℝ} (h : x ∈ l) : x ≤ listMax l := by
  induction l with
  | nil => simp at h
  | cons a l ih =>
    rcases List.mem_cons.mp h with rfl | h'
    · exact le_max_left _ _
    · show x ≤ max a (listMax l)
      exact le_trans (ih h') (le_max_right _ _)

lemma foldr_max_of_nonneg (l : List ℝ) (c : ℝ) (hc : 0 ≤ c) :
    l.foldr max c = max (listMax l) c := by
  induction l with
  | nil => exact (max_eq_right hc).symm
  | cons a l ih =>
    show max a (l.foldr max c) = max (max a (listMax l)) c
    rw [ih, max_assoc]

lemma listMax_append_singleton (l : List ℝ) (c : ℝ) (hc : 0 ≤ c) :
    listMax (l ++ [c]) = max (listMax l) c := by
  unfold listMax
  rw [List.foldr_append]
  show l.foldr max (max c 0) = max (l.foldr max 0) c
  rw [max_eq_left hc]
  exact foldr_max_of_nonneg l c hc

lemma sampleFactor_nonneg (getPos : ℕ → SunPos) (hd tl : ℝ) (m : ℕ) :
    0 ≤ sampleFactor getPos hd tl m :=
  le_max_left 0 _

lemma peakSamples_sorted : peakSamples.Pairwise (· ≤ ·) := by
  unfold peakSamples
  exact List.Pairwise.map _ (fun a b h => by omega) (List.pairwise_lt_range 289)

lemma peakRun_spec (getPos : ℕ → SunPos) (hd tl : ℝ) :
    ∀ l : List ℕ, l.Pairwise (· ≤ ·) →
      (peakRun getPos hd tl l).factor = listMax (keptFactors getPos hd tl l)
      ∧ ((peakRun getPos hd tl l).factor = 0 ∧ (peakRun getPos hd tl l).time = none
         ∨ 0 < (peakRun getPos hd tl l).factor
           ∧ ∃ tm, (peakRun getPos hd tl l).time = some tm
               ∧ tm ∈ keptOf getPos l
               ∧ sampleFactor getPos hd tl tm = (peakRun getPos hd tl l).factor
               ∧ ∀ m ∈ keptOf getPos l,
                   sampleFactor getPos hd tl m = (peakRun getPos hd tl l).factor →
                     tm ≤ m) := by
  intro l
  induction l using List.reverseRecOn with
  | nil =>
    intro _
    exact ⟨rfl, Or.inl ⟨rfl, rfl⟩⟩
  | append_singleton l a ih =>
    intro hs
    rw [List.pairwise_append] at hs
    obtain ⟨hl, -, hba⟩ := hs
    have hbound : ∀ x ∈ l, x ≤ a := fun x hx => hba x hx a (List.mem_singleton_self a)
    obtain ⟨ihf, ihd⟩ := ih hl
    have hrun : peakRun getPos hd tl (l ++ [a])
        = peakStep getPos hd tl (peakRun getPos hd tl l) a := by
      unfold peakRun
      rw [List.foldl_append]
      rfl
    by_cases hA : (getPos a).altitude ≤ 0
    · have hstep : peakStep getPos hd tl (peakRun getPos hd tl l) a
          = peakRun getPos hd tl l := by
        simp [peakStep, hA]
      have hkept : keptOf getPos (l ++ [a]) = keptOf getPos l := by
        unfold keptOf
        rw [List.filter_append]
        have hk : sampleKept getPos a = false := by
          simp [sampleKept, hA]
        simp [hk]
      have hkf : keptFactors getPos hd tl (l ++ [a]) = keptFactors getPos hd tl l := by
        unfold keptFactors
        rw [hkept]
      rw [hrun, hstep, hkf, hkept]
      exact ⟨ihf, ihd⟩
    · have hkeptA : sampleKept getPos a = true := by
        simp [sampleKept, hA]
      have hkept : keptOf getPos (l ++ [a]) = keptOf getPos l ++ [a] := by
        unfold keptOf
        rw [List.filter_append]
        simp [hkeptA]
      have hkf : keptFactors getPos hd tl (l ++ [a])
          = keptFactors getPos hd tl l ++ [sampleFactor getPos hd tl a] := by
        unfold keptFactors
        rw [hkept, List.map_append]
        rfl
      have hmax : listMax (keptFactors getPos hd tl (l ++ [a]))
          = max (listMax (keptFactors getPos hd tl l)) (sampleFactor getPos hd tl a) := by
        rw [hkf]
        exact listMax_append_singleton _ _ (sampleFactor_nonneg getPos hd tl a)
      by_cases hF : (peakRun getPos hd tl l).factor
          < getPanelIncidenceFactor (getPos a) hd tl
      · have hstep : peakStep getPos hd tl (peakRun getPos hd tl l) a
            = ⟨getPanelIncidenceFactor (getPos a) hd tl, some a⟩ := by
          simp [peakStep, hA, hF]
        have hlt : listMax (keptFactors getPos hd tl l)
            < sampleFactor getPos hd tl a := by
          rw [← ihf]
          exact hF
        constructor
        · rw [hrun, hstep, hmax]
          exact (max_eq_right (le_of_lt hlt)).symm
        · refine Or.inr ⟨?_, a, ?_, ?_, ?_, ?_⟩
          · rw [hrun, hstep]
            have h0 : 0 ≤ listMax (keptFactors getPos hd tl l) := listMax_nonneg _
            show (0 : ℝ) < getPanelIncidenceFactor (getPos a) hd tl
            calc (0 : ℝ) ≤ listMax (keptFactors getPos hd tl l) := h0
              _ < sampleFactor getPos hd tl a := hlt
          · rw [hrun, hstep]
          · rw [hkept]
            exact List.mem_append_right _ (List.mem_singleton_self a)
          · rw [hrun, hstep]
            rfl
          · intro m hm hFm
            rw [hkept] at hm
            rw [hrun, hstep] at hFm
            rcases List.mem_append.mp hm with hm' | hm''
            · exfalso
              have hmem : sampleFactor getPos hd tl m ∈ keptFactors getPos hd tl l :=
                List.mem_map_of_mem _ hm'
              have := le_listMax_of_mem hmem
              have : sampleFactor getPos hd tl m < sampleFactor getPos hd tl a := by
                calc sampleFactor getPos hd tl m
                    ≤ listMax (keptFactors getPos hd tl l) := this
                  _ < sampleFactor getPos hd tl a := hlt
              rw [hFm] at this
              exact lt_irrefl _ this
            · rw [List.mem_singleton.mp hm'']
      · have hstep : peakStep getPos hd tl (peakRun getPos hd tl l) a
            = peakRun getPos hd tl l := by
          simp [peakStep, hA, hF]
        have hle : sampleFactor getPos hd tl a
            ≤ listMax (keptFactors getPos hd tl l) := by
          rw [← ihf]
          exact le_of_not_lt hF
        constructor
        · rw [hrun, hstep, hmax, ihf]
          exact (max_eq_left hle).symm
        · rw [hrun, hstep, hkept]
          rcases ihd with h0 | ⟨hpos, tm, htm, hmem, hFtm, hmin⟩
          · exact Or.inl h0
          · refine Or.inr ⟨hpos, tm, htm, List.mem_append_left _ hmem, hFtm, ?_⟩
            intro m hm hFm
            rcases List.mem_append.mp hm with hm' | hm''
            · exact hmin m hm' hFm
            · rw [List.mem_singleton.mp hm'']
              exact hbound tm (List.mem_of_mem_filter hmem)

lemma pathFoldl_eq (getPos : ℕ → SunPos) (radius : ℝ) :
    ∀ (l : List ℕ) (acc : List Vec3),
      l.foldl (pathStep getPos radius) acc
        = acc ++ (l.filter (sampleKept getPos)).map (pathPoint getPos radius) := by
  intro l
  induction l with
  | nil =>
    intro acc
    simp
  | cons m l ih =>
    intro acc
    show l.foldl (pathStep getPos radius) (pathStep getPos radius acc m)
        = acc ++ ((m :: l).filter (sampleKept getPos)).map (pathPoint getPos radius)
    rw [ih]
    by_cases hA : (getPos m).altitude ≤ 0
    · have hk : sampleKept getPos m = false := by
        simp [sampleKept, hA]
      rw [List.filter_cons, hk]
      simp [pathStep, hA]
    · have hk : sampleKept getPos m = true := by
        simp [sampleKept, hA]
      rw [List.filter_cons, hk]
      simp [pathStep, hA]

lemma buildSunPathGeometry_eq (getPos : ℕ → SunPos) (radius : ℝ) :
    buildSunPathGeometry getPos radius
      = (pathSamples.filter (sampleKept getPos)).map (pathPoint getPos radius) := by
  unfold buildSunPathGeometry
  rw [pathFoldl_eq]
  simp

lemma panelNormal_zero_ninety : getPanelNormalVector 0 90 = ⟨0, 0, -1⟩ := by
  rw [getPanelNormalVector_eq_raw]
  unfold rawPanelNormal Vec3.add Vec3.smul
  rw [degToRad_ninety, degToRad_neg_ninety]
  ext <;>
    simp [Real.cos_pi_div_two, Real.sin_pi_div_two, Real.cos_neg, Real.sin_neg]

lemma sunDir_quarter :
    getSunDirectionVector ⟨0, Real.pi / 4⟩
      = ⟨0, Real.sin (Real.pi / 4), Real.cos (Real.pi / 4)⟩ := by
  rw [getSunDirectionVector_eq_raw]
  unfold rawSunDirection
  ext <;> simp [Real.cos_pi_div_two, Real.sin_pi_div_two]

lemma quarterFactor_zero (m : ℕ) : sampleFactor constQuarterAlt 0 90 m = 0 := by
  unfold sampleFactor constQuarterAlt getPanelIncidenceFactor
  rw [panelNormal_zero_ninety, sunDir_quarter, Vec3.dot_mk]
  have hc : 0 ≤ Real.cos (Real.pi / 4) := by
    rw [Real.cos_pi_div_four]
    positivity
  apply max_eq_left
  nlinarith

lemma quarterAlt_pos (m : ℕ) : ¬ (constQuarterAlt m).altitude ≤ 0 := by
  unfold constQuarterAlt
  simp
  positivity

lemma quarterFold (l : List ℕ) :
    l.foldl (peakStep constQuarterAlt 0 90) ⟨0, none⟩ = ⟨0, none⟩ := by
  induction l with
  | nil => rfl
  | cons m l ih =>
    show l.foldl (peakStep constQuarterAlt 0 90)
        (peakStep constQuarterAlt 0 90 ⟨0, none⟩ m) = ⟨0, none⟩
    have hF0 : getPanelIncidenceFactor (constQuarterAlt m) 0 90 = 0 :=
      quarterFactor_zero m
    have hstep : peakStep constQuarterAlt 0 90 ⟨0, none⟩ m = ⟨0, none⟩ := by
      simp [peakStep, quarterAlt_pos m, hF0]
    rw [hstep]
    exact ih

lemma panelNormal_oneEighty_fortyFive :
    getPanelNormalVector 180 45
      = ⟨0, Real.cos (Real.pi / 4), Real.sin (Real.pi / 4)⟩ := by
  rw [getPanelNormalVector_eq_raw]
  unfold rawPanelNormal Vec3.add Vec3.smul
  have h45 : degToRad 45 = Real.pi / 4 := by
    unfold degToRad
    ring
  have h90 : degToRad (180 - 90) = Real.pi / 2 := by
    unfold degToRad
    ring
  rw [h45, h90]
  ext <;> simp [Real.cos_pi_div_two, Real.sin_pi_div_two]

/-- C1 counterexample: at sunrise or sunset azimuth 0 the sun-info panel
prints 90 degrees, while the section 4.1 compass conversion
normalize360(radToDeg(azimuth) + 180) yields 180 degrees, so the panel
values are not obtained via the section 4.1 conversion. -/
theorem sunInfoDeg_not_compass_counterexample :
    sunInfoSunriseDeg 0 = 90 ∧ sunInfoSunsetDeg 0 = 90
      ∧ toCompassHeadingDegrees 0 = 180 := by
  have h90 : radToDeg (0 + Real.pi / 2) = 90 := by
    rw [radToDeg_add_pi_div_two, radToDeg_zero]
    norm_num
  refine ⟨?_, ?_, toCompassHeadingDegrees_zero⟩
  · unfold sunInfoSunriseDeg
    rw [h90]
    exact normalizeDegrees_fixed 90 (by norm_num) (by norm_num)
  · unfold sunInfoSunsetDeg
    rw [h90]
    exact normalizeDegrees_fixed 90 (by norm_num) (by norm_num)

/-- C1 (amended): for every sunrise or sunset azimuth queried at the exact
provider timestamps, the value reported in the sun-info panel is
normalize360(radToDeg(azimuth) + 90) — the azimuth shifted into the
scene's east-referenced convention — not the section 4.1 compass heading;
the value still lies in [0, 360). -/
theorem sunInfoDeg_spec (az : ℝ) :
    sunInfoSunriseDeg az = normalizeDegrees (radToDeg az + 90)
    ∧ sunInfoSunsetDeg az = normalizeDegrees (radToDeg az + 90)
    ∧ 0 ≤ sunInfoSunriseDeg az ∧ sunInfoSunriseDeg az < 360 := by
  have he : radToDeg (az + Real.pi / 2) = radToDeg az + 90 :=
    radToDeg_add_pi_div_two az
  refine ⟨?_, ?_, ?_, ?_⟩
  · unfold sunInfoSunriseDeg
    rw [he]
  · unfold sunInfoSunsetDeg
    rw [he]
  · exact (normalizeDegrees_bounds _).1
  · exact (normalizeDegrees_bounds _).2

/-- C2 counterexample: with the sun permanently at altitude pi/4 and
azimuth 0 and a vertical panel facing north (heading 0, tilt 90), minute 0
is swept and kept and attains the returned maximum factor, yet the
returned time is none rather than the earliest sample achieving the
maximum. -/
theorem dailyPeak_claim_counterexample :
    sampleKept constQuarterAlt 0 = true
    ∧ (0 : ℕ) ∈ peakSamples
    ∧ sampleFactor constQuarterAlt 0 90 0
        = (getDailyPeakIncidence constQuarterAlt 0 90).factor
    ∧ (getDailyPeakIncidence constQuarterAlt 0 90).time = none := by
  have hfold : getDailyPeakIncidence constQuarterAlt 0 90 = ⟨0, none⟩ :=
    quarterFold peakSamples
  refine ⟨?_, ?_, ?_, ?_⟩
  · unfold sampleKept
    exact decide_eq_true (quarterAlt_pos 0)
  · unfold peakSamples
    exact List.mem_map.mpr ⟨0, List.mem_range.mpr (by norm_num), by norm_num⟩
  · rw [hfold]
    exact quarterFactor_zero 0
  · rw [hfold]

/-- C2 (amended): getDailyPeakIncidence sweeps minutes 0 to 1440 in
5-minute steps, skips samples with altitude at most 0, and returns the
maximum incidence factor over the kept samples (0 when none are kept);
when that maximum is positive the returned time is the earliest kept
sample attaining it, and when it is 0 the returned time is none (the
running best is updated only on a strict greater-than comparison). -/
theorem getDailyPeakIncidence_spec (getPos : ℕ → SunPos) (hd tl : ℝ) :
    (getDailyPeakIncidence getPos hd tl).factor
        = listMax (keptFactors getPos hd tl peakSamples)
    ∧ ((getDailyPeakIncidence getPos hd tl).factor = 0 →
        (getDailyPeakIncidence getPos hd tl).time = none)
    ∧ (0 < (getDailyPeakIncidence getPos hd tl).factor →
        ∃ tm, (getDailyPeakIncidence getPos hd tl).time = some tm
          ∧ tm ∈ keptOf getPos peakSamples
          ∧ sampleFactor getPos hd tl tm = (getDailyPeakIncidence getPos hd tl).factor
          ∧ ∀ m ∈ keptOf getPos peakSamples,
              sampleFactor getPos hd tl m
                = (getDailyPeakIncidence getPos hd tl).factor → tm ≤ m) := by
  have h := peakRun_spec getPos hd tl peakSamples peakSamples_sorted
  have he : getDailyPeakIncidence getPos hd tl = peakRun getPos hd tl peakSamples := rfl
  rw [he]
  rcases h.2 with ⟨h0, hn⟩ | ⟨hpos, hex⟩
  · refine ⟨h.1, fun _ => hn, fun hp => ?_⟩
    rw [h0] at hp
    exact absurd hp (lt_irrefl 0)
  · refine ⟨h.1, fun h0 => ?_, fun _ => hex⟩
    rw [h0] at hpos
    exact absurd hpos (lt_irrefl 0)

/-- Witness for the amended C2 theorem at a polar-night provider. -/
theorem getDailyPeakIncidence_spec_witness :
    (getDailyPeakIncidence constNightPos 155 24).time = none := by
  have h := getDailyPeakIncidence_spec constNightPos 155 24
  apply h.2.1
  rw [h.1]
  have hkept : keptOf constNightPos peakSamples = [] := by
    unfold keptOf
    rw [List.filter_eq_nil_iff]
    intro a _
    simp only [sampleKept, constNightPos, decide_eq_true_eq]
    norm_num
  unfold keptFactors
  rw [hkept]
  rfl

/-- C3: when every sampled altitude over the day is at most 0 (polar
night), getDailyPeakIncidence returns factor 0 and time none. -/
theorem getDailyPeakIncidence_polar_night (getPos : ℕ → SunPos) (hd tl : ℝ)
    (h : ∀ m ∈ peakSamples, (getPos m).altitude ≤ 0) :
    getDailyPeakIncidence getPos hd tl = ⟨0, none⟩ := by
  have hs := peakRun_spec getPos hd tl peakSamples peakSamples_sorted
  have he : getDailyPeakIncidence getPos hd tl = peakRun getPos hd tl peakSamples := rfl
  have hkept : keptOf getPos peakSamples = [] := by
    unfold keptOf
    rw [List.filter_eq_nil_iff]
    intro a ha
    simp only [sampleKept, decide_eq_true_eq]
    intro hcon
    exact hcon (h a ha)
  have hfac : (peakRun getPos hd tl peakSamples).factor = 0 := by
    rw [hs.1]
    unfold keptFactors
    rw [hkept]
    rfl
  have htime : (peakRun getPos hd tl peakSamples).time = none := by
    rcases hs.2 with ⟨-, hn⟩ | ⟨hpos, -⟩
    · exact hn
    · rw [hfac] at hpos
      exact absurd hpos (lt_irrefl 0)
  rw [he]
  exact DailyPeak.ext hfac htime

/-- C3 witness at a polar-night provider. -/
theorem getDailyPeakIncidence_polar_night_witness :
    getDailyPeakIncidence constNightPos 155 24 = ⟨0, none⟩ :=
  getDailyPeakIncidence_polar_night constNightPos 155 24
    (fun m _ => by norm_num [constNightPos])

/-- C4: the incidence factor equals max(0, dot(panel normal, sun
direction)), lies in [0, 1], and equals 1 only when the panel normal
exactly matches the sun direction. -/
theorem getPanelIncidenceFactor_contract (sunPos : SunPos) (hd tl : ℝ) :
    getPanelIncidenceFactor sunPos hd tl
        = max 0 (Vec3.dot (getPanelNormalVector hd tl) (getSunDirectionVector sunPos))
    ∧ 0 ≤ getPanelIncidenceFactor sunPos hd tl
    ∧ getPanelIncidenceFactor sunPos hd tl ≤ 1
    ∧ (getPanelIncidenceFactor sunPos hd tl = 1 →
        getPanelNormalVector hd tl = getSunDirectionVector sunPos) := by
  have hn := getPanelNormalVector_normSq hd tl
  have hs := getSunDirectionVector_normSq sunPos
  refine ⟨rfl, le_max_left _ _, ?_, ?_⟩
  · exact max_le (by norm_num) (Vec3.dot_le_one hn hs)
  · intro h1
    unfold getPanelIncidenceFactor at h1
    rcases max_eq_iff.mp h1 with ⟨h0, -⟩ | ⟨hb, -⟩
    · norm_num at h0
    · exact Vec3.eq_of_dot_eq_one hn hs hb

/-- C4 witness: a concrete aligned configuration (sun at azimuth 0 and
altitude pi/4, panel heading 180 and tilt 45) where the factor is 1, so
the panel normal equals the sun direction. -/
theorem getPanelIncidenceFactor_contract_witness :
    getPanelNormalVector 180 45 = getSunDirectionVector ⟨0, Real.pi / 4⟩ := by
  apply (getPanelIncidenceFactor_contract ⟨0, Real.pi / 4⟩ 180 45).2.2.2
  unfold getPanelIncidenceFactor
  rw [panelNormal_oneEighty_fortyFive, sunDir_quarter, Vec3.dot_mk]
  have h2 : Real.sqrt 2 * Real.sqrt 2 = 2 := Real.mul_self_sqrt (by norm_num)
  have hval : (0 : ℝ) * 0 + Real.cos (Real.pi / 4) * Real.sin (Real.pi / 4)
      + Real.sin (Real.pi / 4) * Real.cos (Real.pi / 4) = 1 := by
    rw [Real.sin_pi_div_four, Real.cos_pi_div_four]
    linear_combination h2 / 2
  rw [hval]
  norm_num

/-- C5: toCompassHeadingDegrees equals normalize360(radToDeg(azimuth) +
180), lies in [0, 360), maps azimuth 0 to heading 180 and azimuth -pi/2 to
heading 90. -/
theorem toCompassHeadingDegrees_contract (az : ℝ) :
    toCompassHeadingDegrees az = normalizeDegrees (radToDeg az + 180)
    ∧ 0 ≤ toCompassHeadingDegrees az ∧ toCompassHeadingDegrees az < 360
    ∧ toCompassHeadingDegrees 0 = 180
    ∧ toCompassHeadingDegrees (-(Real.pi / 2)) = 90 := by
  refine ⟨toCompassHeadingDegrees_eq az, ?_, ?_, toCompassHeadingDegrees_zero,
    toCompassHeadingDegrees_neg_pi_div_two⟩
  · rw [toCompassHeadingDegrees_eq]
    exact (normalizeDegrees_bounds _).1
  · rw [toCompassHeadingDegrees_eq]
    exact (normalizeDegrees_bounds _).2

/-- C6: the sun direction vector built from cos(azimuth + pi/2),
sin(altitude), sin(azimuth + pi/2) has exactly unit norm for every azimuth
and every altitude in [-pi/2, pi/2], and the final normalize call leaves
it unchanged. -/
theorem sunDirection_unit_norm (azimuth altitude : ℝ)
    (_h1 : -(Real.pi / 2) ≤ altitude) (_h2 : altitude ≤ Real.pi / 2) :
    Vec3.norm (rawSunDirection ⟨azimuth, altitude⟩) = 1
    ∧ getSunDirectionVector ⟨azimuth, altitude⟩
        = rawSunDirection ⟨azimuth, altitude⟩ := by
  constructor
  · unfold Vec3.norm
    rw [rawSunDirection_normSq, Real.sqrt_one]
  · exact getSunDirectionVector_eq_raw _

/-- C6 witness at azimuth 0 and altitude 0. -/
theorem sunDirection_unit_norm_witness :
    Vec3.norm (rawSunDirection ⟨0, 0⟩) = 1 :=
  (sunDirection_unit_norm 0 0
    (by linarith [Real.pi_pos]) (by linarith [Real.pi_pos])).1

/-- C7: normalizeDegrees x equals ((x % 360) + 360) % 360 under JavaScript
remainder, lies in [0, 360), and is idempotent. -/
theorem normalizeDegrees_contract (x : ℝ) :
    normalizeDegrees x = jsMod (jsMod x 360 + 360) 360
    ∧ 0 ≤ normalizeDegrees x ∧ normalizeDegrees x < 360
    ∧ normalizeDegrees (normalizeDegrees x) = normalizeDegrees x :=
  ⟨rfl, (normalizeDegrees_bounds x).1, (normalizeDegrees_bounds x).2,
    normalizeDegrees_idem x⟩

/-- C8: buildSunPathGeometry emits, in order, exactly the points of the
10-minute samples whose altitude is positive (samples with altitude at
most 0 are omitted), hence at most 145 points. -/
theorem buildSunPathGeometry_contract (getPos : ℕ → SunPos) (radius : ℝ) :
    buildSunPathGeometry getPos radius
        = (pathSamples.filter (sampleKept getPos)).map (pathPoint getPos radius)
    ∧ (buildSunPathGeometry getPos radius).length ≤ 145 := by
  refine ⟨buildSunPathGeometry_eq getPos radius, ?_⟩
  rw [buildSunPathGeometry_eq, List.length_map]
  calc (pathSamples.filter (sampleKept getPos)).length
      ≤ pathSamples.length := List.length_filter_le _ _
    _ = 145 := by simp [pathSamples]

/-- C10: every point emitted by buildSunPathGeometry has strictly positive
y and lies exactly at distance radius from the origin, for a positive
radius and a provider whose altitudes stay in the physical range (at most
pi/2, as the external provider guarantees). -/
theorem sunPathPoint_invariant (getPos : ℕ → SunPos) (radius : ℝ) (v : Vec3)
    (hr : 0 < radius) (halt : ∀ m, (getPos m).altitude ≤ Real.pi / 2)
    (hv : v ∈ buildSunPathGeometry getPos radius) :
    0 < v.y ∧ Vec3.norm v = radius := by
  rw [buildSunPathGeometry_eq] at hv
  obtain ⟨m, hm, rfl⟩ := List.mem_map.mp hv
  obtain ⟨-, hkept⟩ := List.mem_filter.mp hm
  have hpos : 0 < (getPos m).altitude := by
    simp only [sampleKept, decide_eq_true_eq] at hkept
    exact lt_of_not_le hkept
  have hlt : (getPos m).altitude < Real.pi := by
    have hp := Real.pi_pos
    have hh := halt m
    linarith
  have hsin : 0 < Real.sin (getPos m).altitude :=
    Real.sin_pos_of_pos_of_lt_pi hpos hlt
  constructor
  · show 0 < radius * Real.sin (getPos m).altitude
    exact mul_pos hr hsin
  · have hns : Vec3.normSq (pathPoint getPos radius m) = radius ^ 2 := by
      unfold pathPoint
      rw [Vec3.normSq_mk]
      have hA := Real.sin_sq_add_cos_sq ((getPos m).azimuth + Real.pi / 2)
      have hB := Real.sin_sq_add_cos_sq (getPos m).altitude
      linear_combination (radius ^ 2 * Real.cos (getPos m).altitude ^ 2) * hA
        + radius ^ 2 * hB
    unfold Vec3.norm
    rw [hns, Real.sqrt_sq hr.le]

/-- C10 witness: the point emitted at minute 0 for the provider with the
sun at altitude pi/4 and radius 10. -/
theorem sunPathPoint_invariant_witness :
    0 < (pathPoint constQuarterAlt 10 0).y
    ∧ Vec3.norm (pathPoint constQuarterAlt 10 0) = 10 := by
  apply sunPathPoint_invariant constQuarterAlt 10 (pathPoint constQuarterAlt 10 0)
    (by norm_num)
    (fun m => by
      show Real.pi / 4 ≤ Real.pi / 2
      linarith [Real.pi_pos])
  rw [buildSunPathGeometry_eq]
  apply List.mem_map_of_mem
  apply List.mem_filter.mpr
  constructor
  · unfold pathSamples
    exact List.mem_map.mpr ⟨0, List.mem_range.mpr (by norm_num), by norm_num⟩
  · unfold sampleKept
    exact decide_eq_true (quarterAlt_pos 0)

/-- C9: when any of the parsed year, month, day components of the date
string is falsy, getSelectedDateTime and getSelectedDate silently return
the current date-time instead of signalling an error; for a well-formed
date string getSelectedDateTime returns the date at the selected hours
and minutes (and getSelectedDate its midnight). -/
theorem getSelectedDateTime_contract (num : List Char → Option ℚ)
    (dateString : List Char) (timeMinutes : ℕ) :
    ((!(jsTruthy ((dateParts num dateString).getD 0 none))
        || !(jsTruthy ((dateParts num dateString).getD 1 none))
        || !(jsTruthy ((dateParts num dateString).getD 2 none))) = true →
      getSelectedDateTime num dateString timeMinutes = JsDate.now
      ∧ getSelectedDate num dateString = JsDate.now)
    ∧ ((!(jsTruthy ((dateParts num dateString).getD 0 none))
        || !(jsTruthy ((dateParts num dateString).getD 1 none))
        || !(jsTruthy ((dateParts num dateString).getD 2 none))) = false →
      getSelectedDateTime num dateString timeMinutes
        = JsDate.ymdhm (((dateParts num dateString).getD 0 none).getD 0)
            ((((dateParts num dateString).getD 1 none).getD 0) - 1)
            (((dateParts num dateString).getD 2 none).getD 0)
            (timeMinutes / 60) (timeMinutes % 60)
      ∧ getSelectedDate num dateString
        = JsDate.ymdhm (((dateParts num dateString).getD 0 none).getD 0)
            ((((dateParts num dateString).getD 1 none).getD 0) - 1)
            (((dateParts num dateString).getD 2 none).getD 0) 0 0) := by
  constructor
  · intro h
    constructor
    · unfold getSelectedDateTime
      simp only [h, if_true]
    · unfold getSelectedDate
      simp only [h, if_true]
  · intro h
    constructor
    · unfold getSelectedDateTime
      simp only [h, Bool.false_eq_true, if_false]
    · unfold getSelectedDate
      simp only [h, Bool.false_eq_true, if_false]

/-- C9 witness: a malformed date string falls back to now, and the
well-formed date string 2024-6-21 at 90 selected minutes yields the date
at 1:30. -/
theorem getSelectedDateTime_contract_witness :
    getSelectedDateTime numLit ['x'] 90 = JsDate.now
    ∧ getSelectedDateTime numLit ['2', '0', '2', '4', '-', '6', '-', '2', '1'] 90
        = JsDate.ymdhm 2024 5 21 1 30 := by
  constructor
  · exact ((getSelectedDateTime_contract numLit ['x'] 90).1 (by decide)).1
  · have h := ((getSelectedDateTime_contract numLit
      ['2', '0', '2', '4', '-', '6', '-', '2', '1'] 90).2 (by decide)).1
    have hsplit : dateParts numLit ['2', '0', '2', '4', '-', '6', '-', '2', '1']
        = [some 2024, some 6, some 21] := by decide
    rw [h, hsplit]
    norm_num

end
